import Mathlib

/-!
Shallow embedding of the TLS-terminating request/response engine of the two
examples `examples/async_server.rs` and `examples/sync_server.rs`.

Bytes are modelled as `Nat`, the receive buffer as a `List Nat` of length 1024
(`buf0`), the cursor as a `Nat`.  The environment (the TLS transport) is
modelled as a list of read events: `none` is a read that fails (in the async
variant this includes the 10s socket timeout, which surfaces as a read error),
`some data` is a read delivering `data` (`some []` is a zero-byte read).  The
sync variant's events additionally carry the value of `current_millis()`
observed right after the read, which the loop compares against `wait_end`.
-/

namespace Srv

/-- Buffer capacity: `let mut buffer = [0u8; 1024]` in both examples. -/
def CAP : Nat := 1024

/-- The initial receive buffer (`[0u8; 1024]`), fresh per connection. -/
def buf0 : List Nat := List.replicate CAP 0

/-- Whether a byte list starts with the terminator bytes of `"\r\n\r\n"`
(13, 10, 13, 10). -/
def startsWithTerm : List Nat → Bool
  | 13 :: 10 :: 13 :: 10 :: _ => true
  | _ => false

/-- Byte-level substring test used for `to_print.contains("\r\n\r\n")` in both
examples (the bytes are reinterpreted as text unchecked, so `contains` is a
byte-sequence search). -/
def hasTerm : List Nat → Bool
  | [] => false
  | a :: rest => startsWithTerm (a :: rest) || hasTerm rest

/-- Writing `data` into `buf` starting at offset `pos`, as a read into the
slice `&mut buffer[pos..]` (sync) or `&mut buffer` with `pos = 0` (async)
does. -/
def writeAt (buf : List Nat) (pos : Nat) (data : List Nat) : List Nat :=
  buf.take pos ++ data ++ buf.drop (pos + data.length)

/-- The slice the async variant inspects after a read that returned
`data.length` bytes: the read wrote `data` at offset 0 of the buffer, and the
code takes `&buffer[..(pos + len)]`. -/
def asyncInspected (buf : List Nat) (pos : Nat) (data : List Nat) : List Nat :=
  (writeAt buf 0 data).take (pos + data.length)

/-- Outcome of the sync variant's accumulation loop
(`sync_server.rs` lines 146-167).  Each constructor carries the final value of
the cursor variable `pos`. -/
inductive SyncLoopResult where
  | complete (got : List Nat) (pos : Nat)
  | readErr (pos : Nat)
  | timedOut (pos : Nat)
  | noMoreEvents (pos : Nat)
  deriving DecidableEq

/-- The final value of the cursor variable `pos` of the sync loop. -/
def SyncLoopResult.posOf : SyncLoopResult → Nat
  | .complete _ p => p
  | .readErr p => p
  | .timedOut p => p
  | .noMoreEvents p => p

/-- The sync variant's accumulation loop (`sync_server.rs` lines 146-167):
read into `buffer[pos..]`, inspect `buffer[..pos + len]` for the terminator
(break on success, printing), advance `pos`, then check
`current_millis() > wait_end` and break with `time_out = true` when exceeded;
a read error breaks out of the loop with `time_out` still false. -/
def syncLoop : List (Option (List Nat) × Nat) → Nat → List Nat → Nat → SyncLoopResult
  | [], _, _, pos => .noMoreEvents pos
  | (none, _) :: _, _, _, pos => .readErr pos
  | (some data, now) :: rest, waitEnd, buf, pos =>
    let buf1 := writeAt buf pos data
    let got := buf1.take (pos + data.length)
    if hasTerm got then .complete got pos
    else if waitEnd < now then .timedOut (pos + data.length)
    else syncLoop rest waitEnd buf1 (pos + data.length)

/-- Outcome of the async variant's accumulation loop
(`async_server.rs` lines 151-174).  `panicked` models the out-of-range slice
`&buffer[..(pos + len)]` when `pos + len > 1024`.  Each constructor carries
the final value of the cursor variable `pos`. -/
inductive AsyncLoopResult where
  | complete (got : List Nat) (pos : Nat)
  | eof (pos : Nat)
  | readErr (pos : Nat)
  | panicked (pos : Nat)
  | noMoreEvents (pos : Nat)
  deriving DecidableEq

/-- The final value of the cursor variable `pos` of the async loop. -/
def AsyncLoopResult.posOf : AsyncLoopResult → Nat
  | .complete _ p => p
  | .eof p => p
  | .readErr p => p
  | .panicked p => p
  | .noMoreEvents p => p

/-- The async variant's accumulation loop (`async_server.rs` lines 151-174):
`read(&mut buffer)` writes at offset 0; `Ok(0)` breaks (EOF); otherwise the
code slices `&buffer[..(pos + len)]` (panicking when out of range), checks the
terminator (break on success), and advances `pos` by `len`; a read error
breaks. -/
def asyncLoop : List (Option (List Nat)) → List Nat → Nat → AsyncLoopResult
  | [], _, pos => .noMoreEvents pos
  | none :: _, _, pos => .readErr pos
  | some [] :: _, _, pos => .eof pos
  | some data :: rest, buf, pos =>
    if CAP < pos + data.length then .panicked pos
    else
      let got := asyncInspected buf pos data
      if hasTerm got then .complete got pos
      else asyncLoop rest (writeAt buf 0 data) (pos + data.length)

/-- The error type of the TLS session engine, as matched by the examples:
`TlsError::MbedTlsError(code)` with its `i32` code, and all other variants
collapsed into `other`. -/
inductive TlsError where
  | mbedTlsError (code : Int)
  | other
  deriving DecidableEq

/-- Result of `tls.connect()`: an established session or a `TlsError`. -/
inductive HandshakeResult where
  | ok
  | err (e : TlsError)
  deriving DecidableEq

/-- Observable outcome of handling one accepted connection.  `panicked` means
the example called `panic!`/`unwrap` on an error, aborting the process;
`pending` means the modelled event list ran out while the loop was still
reading (the real loop would still be blocked); `finished responded closed
aborted` records whether the response write was invoked, whether
`socket.close()` ran, and whether `socket.abort()` ran. -/
inductive ConnOutcome where
  | panicked
  | pending
  | finished (responded closed aborted : Bool)
  deriving DecidableEq

/-- Whether the connection outcome includes an invocation of the response
write (the Response Emitter). -/
def respondedOf : ConnOutcome → Bool
  | .finished r _ _ => r
  | _ => false

/-- One connection of the async variant (`async_server.rs` lines 146-207):
on `Ok`, run the read loop, then always attempt `write_all` (a write error is
only logged), then `socket.close()` and `socket.abort()`; on
`Err(TlsError::MbedTlsError(-30592))` print an informational message and fall
through to close and abort; on any other error, `panic!`. -/
def asyncConn (hs : HandshakeResult) (events : List (Option (List Nat)))
    (_writeOk : Bool) : ConnOutcome :=
  match hs with
  | .ok =>
    match asyncLoop events buf0 0 with
    | .panicked _ => .panicked
    | .noMoreEvents _ => .pending
    | .complete _ _ => .finished true true true
    | .eof _ => .finished true true true
    | .readErr _ => .finished true true true
  | .err (.mbedTlsError code) =>
    if code = -30592 then .finished false true true else .panicked
  | .err .other => .panicked

/-- One connection of the sync variant (`sync_server.rs` lines 144-196):
on `Ok`, run the read loop; if it did not time out, call
`write_all(...).unwrap()` (panicking on a write error), then `socket.close()`
(the sync variant never calls `abort`); on
`Err(TlsError::MbedTlsError(-30592))` print an informational message and fall
through to close; on any other error, `panic!`. -/
def syncConn (hs : HandshakeResult) (events : List (Option (List Nat) × Nat))
    (writeOk : Bool) (waitEnd : Nat) : ConnOutcome :=
  match hs with
  | .ok =>
    match syncLoop events waitEnd buf0 0 with
    | .timedOut _ => .finished false true false
    | .noMoreEvents _ => .pending
    | .complete _ _ => if writeOk then .finished true true false else .panicked
    | .readErr _ => if writeOk then .finished true true false else .panicked
  | .err (.mbedTlsError code) =>
    if code = -30592 then .finished false true false else .panicked
  | .err .other => .panicked

/-- The environment of one accepted connection of the async variant. -/
structure AsyncConnInput where
  hs : HandshakeResult
  events : List (Option (List Nat))
  writeOk : Bool

/-- The environment of one accepted connection of the sync variant. -/
structure SyncConnInput where
  hs : HandshakeResult
  events : List (Option (List Nat) × Nat)
  writeOk : Bool
  waitEnd : Nat

/-- The async server's accept loop: connections are handled strictly serially;
a panic aborts the process, so later connections are never reached. -/
def asyncServer : List AsyncConnInput → List ConnOutcome
  | [] => []
  | c :: rest =>
    match asyncConn c.hs c.events c.writeOk with
    | .panicked => [ConnOutcome.panicked]
    | .pending => [ConnOutcome.pending]
    | .finished r cl ab => .finished r cl ab :: asyncServer rest

/-- The sync server's accept loop: connections are handled strictly serially;
a panic aborts the process, so later connections are never reached. -/
def syncServer : List SyncConnInput → List ConnOutcome
  | [] => []
  | c :: rest =>
    match syncConn c.hs c.events c.writeOk c.waitEnd with
    | .panicked => [ConnOutcome.panicked]
    | .pending => [ConnOutcome.pending]
    | .finished r cl ab => .finished r cl ab :: syncServer rest

/-- Concatenation of the data chunks delivered by a list of sync read
events. -/
def chunksConcat : List (Option (List Nat) × Nat) → List Nat
  | [] => []
  | (some d, _) :: rest => d ++ chunksConcat rest
  | (none, _) :: rest => chunksConcat rest

/-- A run of successful sync read events is benign relative to accumulated
content `acc`: every read succeeds, arrives within the deadline, never makes
the accumulated text show the terminator, and fits the buffer capacity. -/
def preOk (waitEnd : Nat) : List (Option (List Nat) × Nat) → List Nat → Bool
  | [], _ => true
  | (some d, t) :: rest, acc =>
    !hasTerm (acc ++ d) && decide (t ≤ waitEnd) &&
      decide ((acc ++ d).length ≤ CAP) && preOk waitEnd rest (acc ++ d)
  | (none, _) :: _, _ => false

/-- Transport contract for the sync variant: a read into `buffer[pos..]`
delivers at most `CAP - pos` bytes. -/
def syncWF : List (Option (List Nat) × Nat) → Nat → Bool
  | [], _ => true
  | (none, _) :: rest, pos => syncWF rest pos
  | (some d, _) :: rest, pos =>
    decide (pos + d.length ≤ CAP) && syncWF rest (pos + d.length)

/-- The possible server startup/per-connection actions relevant to
certificate-material failures. -/
inductive ServerAction where
  | listen
  | accept
  | constructSession
  | constructFail
  | handshakeStart
  deriving DecidableEq

/-- Modelled from the spec: the TLS session constructor (`Session::new`, whose
implementation is not part of the examples) fails with a `ConstructionError`
when the certificate or the private key is absent; the examples turn a PEM
parse failure into an absent certificate via `X509::pem(...).ok()`, and call
`.unwrap()` on the construction result. -/
def sessionNewOk (certParsed keyParsed : Bool) : Bool := certParsed && keyParsed

/-- Startup/per-connection action order of the sync example
(`sync_server.rs` lines 105-144): `socket.listen(443)` runs before the accept
loop; a connection is accepted; only then is the session constructed
(panicking via `unwrap` when construction fails), and the handshake starts
only after a successful construction. -/
def syncServerActions (certParsed keyParsed : Bool) : List ServerAction :=
  .listen :: .accept ::
    (if sessionNewOk certParsed keyParsed then [.constructSession, .handshakeStart]
     else [.constructFail])

/-- Startup/per-connection action order of the async example
(`async_server.rs` lines 105-148): `socket.accept(443)` is awaited first; only
then is the session constructed (panicking via `unwrap` when construction
fails), and the handshake starts only after a successful construction. -/
def asyncServerActions (certParsed keyParsed : Bool) : List ServerAction :=
  .accept ::
    (if sessionNewOk certParsed keyParsed then [.constructSession, .handshakeStart]
     else [.constructFail])

theorem writeAt_length (buf data : List Nat) (pos : Nat)
    (h : pos + data.length ≤ buf.length) :
    (writeAt buf pos data).length = buf.length := by
  simp only [writeAt, List.length_append, List.length_take, List.length_drop]
  omega

theorem writeAt_take (buf data : List Nat) (pos : Nat) (h : pos ≤ buf.length) :
    (writeAt buf pos data).take (pos + data.length) = buf.take pos ++ data := by
  have h1 : (buf.take pos ++ data).length = pos + data.length := by
    simp only [List.length_append, List.length_take]
    omega
  calc (writeAt buf pos data).take (pos + data.length)
      = ((buf.take pos ++ data) ++ buf.drop (pos + data.length)).take
          (pos + data.length) := by
        simp only [writeAt, List.append_assoc]
    _ = buf.take pos ++ data := List.take_left' h1

theorem buf0_length : buf0.length = CAP := by
  simp [buf0]

/-- Running the sync loop through a benign run of reads (`preOk`) just
accumulates the delivered chunks: the loop neither breaks nor times out, the
buffer's initial segment holds exactly the accumulated content, and the cursor
equals its length. -/
theorem syncLoop_skip (waitEnd : Nat) (pre : List (Option (List Nat) × Nat)) :
    ∀ (rest : List (Option (List Nat) × Nat)) (acc buf : List Nat) (pos : Nat),
    buf.length = CAP → pos = acc.length → buf.take pos = acc →
    preOk waitEnd pre acc = true →
    ∃ buf1 : List Nat, buf1.length = CAP ∧
      buf1.take (acc ++ chunksConcat pre).length = acc ++ chunksConcat pre ∧
      syncLoop (pre ++ rest) waitEnd buf pos =
        syncLoop rest waitEnd buf1 (acc ++ chunksConcat pre).length := by
  induction pre with
  | nil =>
    intro rest acc buf pos hlen hpos htake _
    refine ⟨buf, hlen, ?_, ?_⟩
    · simpa [hpos, chunksConcat] using htake
    · simp [hpos, chunksConcat]
  | cons head tail ih =>
    intro rest acc buf pos hlen hpos htake hpre
    obtain ⟨ev, t⟩ := head
    cases ev with
    | none => simp [preOk] at hpre
    | some d =>
      simp only [preOk, Bool.and_eq_true, Bool.not_eq_true', decide_eq_true_eq] at hpre
      obtain ⟨⟨⟨hnoterm, ht⟩, hcap⟩, htail⟩ := hpre
      have hcapacc : acc.length ≤ CAP := by
        simp only [List.length_append] at hcap
        omega
      have hposle : pos ≤ buf.length := by
        rw [hlen, hpos]
        exact hcapacc
      have hfit : pos + d.length ≤ buf.length := by
        rw [hlen, hpos]
        simpa [List.length_append] using hcap
      have hstep : (writeAt buf pos d).take (pos + d.length) = acc ++ d := by
        rw [writeAt_take buf d pos hposle, htake]
      have hnotermstep : hasTerm ((writeAt buf pos d).take (pos + d.length)) = false := by
        rw [hstep]
        exact hnoterm
      have hnotime : ¬ waitEnd < t := by omega
      have hrec :
          syncLoop (((some d, t) :: tail) ++ rest) waitEnd buf pos =
            syncLoop (tail ++ rest) waitEnd (writeAt buf pos d) (pos + d.length) := by
        simp only [List.cons_append, syncLoop]
        rw [hnotermstep]
        simp [hnotime]
      obtain ⟨buf1, hb1, hb2, hb3⟩ :=
        ih rest (acc ++ d) (writeAt buf pos d) (pos + d.length)
          (by rw [writeAt_length buf d pos hfit]; exact hlen)
          (by simp [hpos])
          hstep htail
      refine ⟨buf1, hb1, ?_, ?_⟩
      · simpa [chunksConcat, List.append_assoc] using hb2
      · rw [hrec, hb3]
        simp [chunksConcat, List.append_assoc]

/-- The sync loop never moves the cursor past the capacity, as long as every
read delivers at most the size of the slice `buffer[pos..]` it was given. -/
theorem syncLoop_posOf_le (evs : List (Option (List Nat) × Nat)) :
    ∀ (waitEnd : Nat) (buf : List Nat) (pos : Nat),
    syncWF evs pos = true → pos ≤ CAP →
    (syncLoop evs waitEnd buf pos).posOf ≤ CAP := by
  induction evs with
  | nil =>
    intro _ _ pos _ h
    simpa [syncLoop, SyncLoopResult.posOf] using h
  | cons head tail ih =>
    intro waitEnd buf pos hwf hpos
    obtain ⟨ev, t⟩ := head
    cases ev with
    | none => simpa [syncLoop, SyncLoopResult.posOf] using hpos
    | some d =>
      simp only [syncWF, Bool.and_eq_true, decide_eq_true_eq] at hwf
      obtain ⟨hfit, htail⟩ := hwf
      simp only [syncLoop]
      by_cases hterm : hasTerm ((writeAt buf pos d).take (pos + d.length)) = true
      · simpa [hterm, SyncLoopResult.posOf] using hpos
      · rw [Bool.not_eq_true] at hterm
        by_cases htime : waitEnd < t
        · simpa [hterm, htime, SyncLoopResult.posOf] using hfit
        · simpa [hterm, htime] using
            ih waitEnd (writeAt buf pos d) (pos + d.length) htail hfit

/-- The async loop never moves the cursor past the capacity: the out-of-range
slice panics before `pos` is advanced. -/
theorem asyncLoop_posOf_le (evs : List (Option (List Nat))) :
    ∀ (buf : List Nat) (pos : Nat), pos ≤ CAP →
    (asyncLoop evs buf pos).posOf ≤ CAP := by
  induction evs with
  | nil =>
    intro _ pos h
    simpa [asyncLoop, AsyncLoopResult.posOf] using h
  | cons ev tail ih =>
    intro buf pos hpos
    cases ev with
    | none => simpa [asyncLoop, AsyncLoopResult.posOf] using hpos
    | some d =>
      cases d with
      | nil => simpa [asyncLoop, AsyncLoopResult.posOf] using hpos
      | cons a as =>
        simp only [asyncLoop]
        by_cases hbig : CAP < pos + (as.length + 1)
        · simpa [hbig, AsyncLoopResult.posOf] using hpos
        · by_cases hterm : hasTerm (asyncInspected buf pos (a :: as)) = true
          · simpa [hbig, hterm, AsyncLoopResult.posOf] using hpos
          · rw [Bool.not_eq_true] at hterm
            have hle : pos + (a :: as).length ≤ CAP := by
              simp only [List.length_cons]
              omega
            simpa [hbig, hterm] using
              ih (writeAt buf 0 (a :: as)) (pos + (a :: as).length) hle

/-- Claim C7: at every point during a connection the receive buffer's write
cursor is at most the capacity (1024), in both variants; accumulation never
advances the cursor past the capacity.  The event lists range over all
prefixes of a delivery, so the bound on the returned cursor covers every
intermediate state; the sync side assumes the transport contract that a read
into `buffer[pos..]` delivers at most `CAP - pos` bytes, and on the async
side the bound holds unconditionally because the out-of-range slice panics
before the cursor is advanced. -/
theorem c7_cursor_le_capacity (evsS : List (Option (List Nat) × Nat))
    (waitEnd : Nat) (evsA : List (Option (List Nat)))
    (h : syncWF evsS 0 = true) :
    (syncLoop evsS waitEnd buf0 0).posOf ≤ CAP ∧
    (asyncLoop evsA buf0 0).posOf ≤ CAP :=
  ⟨syncLoop_posOf_le evsS waitEnd buf0 0 h (by simp [CAP]),
   asyncLoop_posOf_le evsA buf0 0 (by simp [CAP])⟩

theorem c7_cursor_le_capacity_witness :
    syncWF [(some [72, 105], 3)] 0 = true ∧
    ((syncLoop [(some [72, 105], 3)] 20000 buf0 0).posOf ≤ CAP ∧
     (asyncLoop [some [72, 105], none] buf0 0).posOf ≤ CAP) :=
  ⟨by decide,
   c7_cursor_le_capacity [(some [72, 105], 3)] 20000 [some [72, 105], none]
     (by decide)⟩

/-- Claim C10: in the async variant, every read during accumulation writes the
received bytes at offset 0 of the buffer rather than at the cursor, while the
cursor `pos` still advances by the number of bytes read after each
non-terminating read; hence the inspected slice `buffer[..pos + len]` has
length `pos + len` and extends `pos` bytes beyond the `len` bytes written by
the most recent read whenever `pos > 0`. -/
theorem c10_async_reads_at_offset_zero (buf : List Nat) (pos a : Nat)
    (as : List Nat) (rest : List (Option (List Nat)))
    (hbuf : buf.length = CAP) (hpos : 0 < pos)
    (hcap : pos + (a :: as).length ≤ CAP) :
    asyncInspected buf pos (a :: as) =
      (a :: as) ++ (buf.drop (a :: as).length).take pos ∧
    (asyncInspected buf pos (a :: as)).length = pos + (a :: as).length ∧
    (asyncInspected buf pos (a :: as)).take (a :: as).length = a :: as ∧
    (hasTerm (asyncInspected buf pos (a :: as)) = false →
      asyncLoop (some (a :: as) :: rest) buf pos =
        asyncLoop rest (writeAt buf 0 (a :: as)) (pos + (a :: as).length)) := by
  have hw : writeAt buf 0 (a :: as) = (a :: as) ++ buf.drop (a :: as).length := by
    simp [writeAt]
  have h1 : asyncInspected buf pos (a :: as) =
      (a :: as) ++ (buf.drop (a :: as).length).take pos := by
    simp only [asyncInspected, hw]
    rw [Nat.add_comm pos (a :: as).length, List.take_append]
  refine ⟨h1, ?_, ?_, ?_⟩
  · rw [h1]
    simp only [List.length_append, List.length_take, List.length_drop, hbuf]
    omega
  · rw [h1]
    exact List.take_left _ _
  · intro hterm
    have hnotbig : ¬ CAP < pos + (as.length + 1) := by
      simp only [List.length_cons] at hcap
      omega
    simp [asyncLoop, hnotbig, hterm]

theorem c10_async_reads_at_offset_zero_witness :
    buf0.length = CAP ∧ 0 < 2 ∧ 2 + ([66, 67] : List Nat).length ≤ CAP ∧
    (asyncInspected buf0 2 [66, 67] =
        [66, 67] ++ (buf0.drop ([66, 67] : List Nat).length).take 2 ∧
      (asyncInspected buf0 2 [66, 67]).length = 2 + ([66, 67] : List Nat).length ∧
      (asyncInspected buf0 2 [66, 67]).take ([66, 67] : List Nat).length = [66, 67] ∧
      (hasTerm (asyncInspected buf0 2 [66, 67]) = false →
        asyncLoop (some [66, 67] :: []) buf0 2 =
          asyncLoop [] (writeAt buf0 0 [66, 67]) (2 + ([66, 67] : List Nat).length))) :=
  ⟨by simp [buf0], by decide, by decide,
   c10_async_reads_at_offset_zero buf0 2 66 [67] [] (by simp [buf0]) (by decide)
     (by decide)⟩

/-- Claim C1: a handshake failure with the mbedtls code -30592 (the peer
rejected the server's self-signed certificate) is handled as a normal value in
both variants: the informational arm is taken instead of the `panic!` arm, the
connection is closed (and, in the async variant, aborted), and the server
loops on to accept the next connection; the process is never aborted by this
failure.  The printed informational line is console output and is represented
by taking the non-panicking branch. -/
theorem c1_selfsigned_rejection_recoverable
    (evA : List (Option (List Nat))) (w1 : Bool)
    (evS : List (Option (List Nat) × Nat)) (w2 : Bool) (waitEnd : Nat)
    (restA : List AsyncConnInput) (restS : List SyncConnInput) :
    asyncConn (.err (.mbedTlsError (-30592))) evA w1 =
      ConnOutcome.finished false true true ∧
    syncConn (.err (.mbedTlsError (-30592))) evS w2 waitEnd =
      ConnOutcome.finished false true false ∧
    asyncServer (⟨.err (.mbedTlsError (-30592)), evA, w1⟩ :: restA) =
      ConnOutcome.finished false true true :: asyncServer restA ∧
    syncServer (⟨.err (.mbedTlsError (-30592)), evS, w2, waitEnd⟩ :: restS) =
      ConnOutcome.finished false true false :: syncServer restS := by
  refine ⟨?_, ?_, ?_, ?_⟩ <;>
    simp [asyncConn, syncConn, asyncServer, syncServer]

/-- Claim C2 counterexample: a handshake failure whose code is not -30592 hits
the `panic!` arm in both variants, so the error does escape the per-connection
loop and terminates the whole server process: a later well-behaved connection
is never served. -/
theorem c2_counterexample :
    asyncConn (.err (.mbedTlsError 2)) [] true = ConnOutcome.panicked ∧
    syncConn (.err .other) [] true 0 = ConnOutcome.panicked ∧
    asyncServer [⟨.err (.mbedTlsError 2), [], true⟩,
      ⟨.ok, [some [13, 10, 13, 10]], true⟩] = [ConnOutcome.panicked] ∧
    syncServer [⟨.err .other, [], true, 0⟩,
      ⟨.ok, [(some [13, 10, 13, 10], 0)], true, 20000⟩] = [ConnOutcome.panicked] := by
  refine ⟨?_, ?_, ?_, ?_⟩ <;> decide

/-- Claim C2 (amended): a handshake failure with any error other than the
self-signed-rejection code -30592 makes both example variants `panic!`,
terminating the whole server process; subsequent connections are never
accepted.  (The examples do not log-and-advance for these errors.) -/
theorem c2_other_handshake_errors_panic (e : TlsError)
    (evA : List (Option (List Nat))) (w1 : Bool)
    (evS : List (Option (List Nat) × Nat)) (w2 : Bool) (waitEnd : Nat)
    (restA : List AsyncConnInput) (restS : List SyncConnInput)
    (he : e ≠ TlsError.mbedTlsError (-30592)) :
    asyncConn (.err e) evA w1 = ConnOutcome.panicked ∧
    syncConn (.err e) evS w2 waitEnd = ConnOutcome.panicked ∧
    asyncServer (⟨.err e, evA, w1⟩ :: restA) = [ConnOutcome.panicked] ∧
    syncServer (⟨.err e, evS, w2, waitEnd⟩ :: restS) = [ConnOutcome.panicked] := by
  cases e with
  | other =>
    refine ⟨?_, ?_, ?_, ?_⟩ <;>
      simp [asyncConn, syncConn, asyncServer, syncServer]
  | mbedTlsError code =>
    have hc : code ≠ -30592 := by
      intro h
      exact he (by rw [h])
    refine ⟨?_, ?_, ?_, ?_⟩ <;>
      simp [asyncConn, syncConn, asyncServer, syncServer, hc]

theorem c2_other_handshake_errors_panic_witness :
    TlsError.other ≠ TlsError.mbedTlsError (-30592) ∧
    (asyncConn (.err .other) [] true = ConnOutcome.panicked ∧
     syncConn (.err .other) [] true 0 = ConnOutcome.panicked ∧
     asyncServer (⟨.err .other, [], true⟩ :: []) = [ConnOutcome.panicked] ∧
     syncServer (⟨.err .other, [], true, 0⟩ :: []) = [ConnOutcome.panicked]) :=
  ⟨by decide,
   c2_other_handshake_errors_panic .other [] true [] true 0 [] [] (by decide)⟩

/-- Claim C3 counterexample: the two variants are not equivalent.  For the
same delivered data (one read of `"A"`, then the transport reports the
deadline: in the sync variant the wall-clock check fires, in the async variant
the socket timeout surfaces as a read error), the async variant still writes
the response and aborts the socket, while the sync variant skips the response
and never aborts — so the session-visible action sequences differ. -/
theorem c3_counterexample :
    asyncConn .ok [some [65], none] true = ConnOutcome.finished true true true ∧
    syncConn .ok [(some [65], 30000), (none, 30001)] true 20000 =
      ConnOutcome.finished false true false ∧
    respondedOf (asyncConn .ok [some [65], none] true) ≠
      respondedOf (syncConn .ok [(some [65], 30000), (none, 30001)] true 20000) := by
  refine ⟨?_, ?_, ?_⟩ <;> decide

/-- Claim C3 (amended): the two variants agree only at the handshake boundary:
for the same handshake failure both panic exactly for codes other than
-30592 and neither ever invokes the response write.  Their established-session
machines diverge (response after timeout, abort, zero-read and split-
terminator handling), as the counterexample shows. -/
theorem c3_handshake_boundary_agreement (e : TlsError)
    (evA : List (Option (List Nat))) (w1 : Bool)
    (evS : List (Option (List Nat) × Nat)) (w2 : Bool) (waitEnd : Nat) :
    (asyncConn (.err e) evA w1 = ConnOutcome.panicked ↔
      syncConn (.err e) evS w2 waitEnd = ConnOutcome.panicked) ∧
    respondedOf (asyncConn (.err e) evA w1) = false ∧
    respondedOf (syncConn (.err e) evS w2 waitEnd) = false := by
  cases e with
  | other => simp [asyncConn, syncConn, respondedOf]
  | mbedTlsError code =>
    by_cases hc : code = -30592
    · subst hc
      simp [asyncConn, syncConn, respondedOf]
    · simp [asyncConn, syncConn, respondedOf, hc]

/-- Claim C4 counterexample: a stream that contains the terminator ending at
offset 6 (`"ab\r\n\r\nxyz"`, bytes below), delivered in one read well before
the deadline, makes the sync accumulation loop return `Complete` — but the
accumulated result's length is 9, the whole delivery, not 6, the offset of the
end of the terminator. -/
theorem c4_counterexample :
    syncLoop [(some [97, 98, 13, 10, 13, 10, 120, 121, 122], 0)] 20000 buf0 0 =
      SyncLoopResult.complete [97, 98, 13, 10, 13, 10, 120, 121, 122] 0 ∧
    hasTerm (([97, 98, 13, 10, 13, 10, 120, 121, 122] : List Nat).take 6) = true ∧
    hasTerm (([97, 98, 13, 10, 13, 10, 120, 121, 122] : List Nat).take 5) = false ∧
    ([97, 98, 13, 10, 13, 10, 120, 121, 122] : List Nat).length ≠ 6 := by
  refine ⟨?_, ?_, ?_, ?_⟩ <;> decide

/-- Claim C4 (amended): in the sync variant, for every delivery whose chunks
stay terminator-free and within capacity until a final read makes the
accumulated bytes contain the terminator, the loop returns `Complete` and the
result is exactly the bytes delivered so far — so its length is the total
delivered through the detecting read, which equals the offset of the end of
the terminator only when that read delivers nothing past the terminator.  In
the async variant, whose later reads overwrite offset 0 so that the inspected
bytes need not match the stream (see C10), what is guaranteed is the
first-read case: a first read whose bytes contain the terminator yields
`Complete` with exactly those bytes. -/
theorem c4_framer_complete (pre : List (Option (List Nat) × Nat)) (d : List Nat)
    (t : Nat) (rest : List (Option (List Nat) × Nat)) (waitEnd : Nat)
    (d1 : List Nat) (rest2 : List (Option (List Nat)))
    (hpre : preOk waitEnd pre [] = true)
    (hterm : hasTerm (chunksConcat pre ++ d) = true)
    (hcap : (chunksConcat pre ++ d).length ≤ CAP)
    (hd1 : hasTerm d1 = true) (hlen1 : d1.length ≤ CAP) :
    syncLoop (pre ++ (some d, t) :: rest) waitEnd buf0 0 =
      SyncLoopResult.complete (chunksConcat pre ++ d) (chunksConcat pre).length ∧
    asyncLoop (some d1 :: rest2) buf0 0 = AsyncLoopResult.complete d1 0 := by
  constructor
  · obtain ⟨buf1, hb1, hb2, hb3⟩ :=
      syncLoop_skip waitEnd pre ((some d, t) :: rest) [] buf0 0 buf0_length rfl
        (by simp) hpre
    simp only [List.nil_append] at hb2 hb3
    rw [hb3]
    have hccle : (chunksConcat pre).length ≤ buf1.length := by
      rw [hb1]
      simp only [List.length_append] at hcap
      omega
    have hgot : (writeAt buf1 (chunksConcat pre).length d).take
        ((chunksConcat pre).length + d.length) = chunksConcat pre ++ d := by
      rw [writeAt_take buf1 d (chunksConcat pre).length hccle, hb2]
    simp only [syncLoop]
    rw [hgot, hterm]
    simp
  · cases d1 with
    | nil => simp [hasTerm] at hd1
    | cons a as =>
      have hnotbig : ¬ CAP < 0 + (as.length + 1) := by
        simp only [List.length_cons] at hlen1
        omega
      have hins : asyncInspected buf0 0 (a :: as) = a :: as := by
        simp only [asyncInspected]
        rw [writeAt_take buf0 (a :: as) 0 (Nat.zero_le _)]
        simp
      simp [asyncLoop, hnotbig, hins, hd1]
      simp only [List.length_cons] at hlen1
      omega

theorem c4_framer_complete_witness :
    preOk 20000 [(some [13, 10], 5)] [] = true ∧
    hasTerm (chunksConcat [(some [13, 10], 5)] ++ [13, 10]) = true ∧
    (chunksConcat [(some [13, 10], 5)] ++ [13, 10]).length ≤ CAP ∧
    hasTerm [13, 10, 13, 10] = true ∧
    ([13, 10, 13, 10] : List Nat).length ≤ CAP ∧
    (syncLoop [(some [13, 10], 5), (some [13, 10], 7)] 20000 buf0 0 =
      SyncLoopResult.complete (chunksConcat [(some [13, 10], 5)] ++ [13, 10])
        (chunksConcat [(some [13, 10], 5)]).length ∧
     asyncLoop [some [13, 10, 13, 10]] buf0 0 =
      AsyncLoopResult.complete [13, 10, 13, 10] 0) :=
  ⟨by decide, by decide, by decide, by decide, by decide,
   c4_framer_complete [(some [13, 10], 5)] [13, 10] 7 [] 20000 [13, 10, 13, 10] []
     (by decide) (by decide) (by decide) (by decide) (by decide)⟩

/-- Claim C5 counterexample: in the async variant a terminator-free stream
delivered slower than the deadline allows shows up as a read error (the 10s
socket timeout); the loop exits with `readErr`, not a `TimedOut` outcome, and
the Response Emitter IS then invoked (`responded = true`), contradicting the
claim for the async variant. -/
theorem c5_counterexample :
    asyncLoop [none] buf0 0 = AsyncLoopResult.readErr 0 ∧
    asyncConn .ok [none] true = ConnOutcome.finished true true true ∧
    respondedOf (asyncConn .ok [none] true) = true := by
  refine ⟨?_, ?_, ?_⟩ <;> decide

/-- Claim C5 (amended): in the sync variant, for every terminator-free
delivery whose last read arrives after the wall-clock deadline, the loop
returns `TimedOut` and the Response Emitter is never invoked.  In the async
variant a timed-out connection surfaces as a read error, after which the
response is still written. -/
theorem c5_sync_timeout_skips_response (pre : List (Option (List Nat) × Nat))
    (d : List Nat) (t : Nat) (rest : List (Option (List Nat) × Nat))
    (waitEnd : Nat) (w : Bool)
    (hpre : preOk waitEnd pre [] = true)
    (hterm : hasTerm (chunksConcat pre ++ d) = false)
    (hcap : (chunksConcat pre ++ d).length ≤ CAP)
    (ht : waitEnd < t) :
    syncLoop (pre ++ (some d, t) :: rest) waitEnd buf0 0 =
      SyncLoopResult.timedOut (chunksConcat pre ++ d).length ∧
    syncConn .ok (pre ++ (some d, t) :: rest) w waitEnd =
      ConnOutcome.finished false true false ∧
    (∀ (evsA : List (Option (List Nat))) (p : Nat) (w2 : Bool),
      asyncLoop evsA buf0 0 = AsyncLoopResult.readErr p →
      asyncConn .ok evsA w2 = ConnOutcome.finished true true true) := by
  have hloop : syncLoop (pre ++ (some d, t) :: rest) waitEnd buf0 0 =
      SyncLoopResult.timedOut (chunksConcat pre ++ d).length := by
    obtain ⟨buf1, hb1, hb2, hb3⟩ :=
      syncLoop_skip waitEnd pre ((some d, t) :: rest) [] buf0 0 buf0_length rfl
        (by simp) hpre
    simp only [List.nil_append] at hb2 hb3
    rw [hb3]
    have hccle : (chunksConcat pre).length ≤ buf1.length := by
      rw [hb1]
      simp only [List.length_append] at hcap
      omega
    have hgot : (writeAt buf1 (chunksConcat pre).length d).take
        ((chunksConcat pre).length + d.length) = chunksConcat pre ++ d := by
      rw [writeAt_take buf1 d (chunksConcat pre).length hccle, hb2]
    simp only [syncLoop]
    rw [hgot, hterm]
    simp [ht, List.length_append]
  refine ⟨hloop, ?_, ?_⟩
  · simp [syncConn, hloop]
  · intro evsA p w2 h
    simp [asyncConn, h]

theorem c5_sync_timeout_skips_response_witness :
    preOk 20000 [(some [72], 5)] [] = true ∧
    hasTerm (chunksConcat [(some [72], 5)] ++ [73]) = false ∧
    (chunksConcat [(some [72], 5)] ++ [73]).length ≤ CAP ∧
    20000 < 30000 ∧
    (syncLoop [(some [72], 5), (some [73], 30000)] 20000 buf0 0 =
      SyncLoopResult.timedOut (chunksConcat [(some [72], 5)] ++ [73]).length ∧
     syncConn .ok [(some [72], 5), (some [73], 30000)] true 20000 =
      ConnOutcome.finished false true false ∧
     (∀ (evsA : List (Option (List Nat))) (p : Nat) (w2 : Bool),
       asyncLoop evsA buf0 0 = AsyncLoopResult.readErr p →
       asyncConn .ok evsA w2 = ConnOutcome.finished true true true)) :=
  ⟨by decide, by decide, by decide, by decide,
   c5_sync_timeout_skips_response [(some [72], 5)] [73] 30000 [] 20000 true
     (by decide) (by decide) (by decide) (by decide)⟩

/-- Claim C6 counterexample: the sync variant does not stop on a zero-byte
read.  After a zero-byte read (graceful peer close) it keeps looping and
accumulates a later terminator, returning `Complete` with four bytes of
content instead of stopping immediately with the empty content read so far. -/
theorem c6_counterexample :
    syncLoop [(some [], 0), (some [13, 10, 13, 10], 1)] 20000 buf0 0 =
      SyncLoopResult.complete [13, 10, 13, 10] 0 ∧
    SyncLoopResult.complete ([13, 10, 13, 10] : List Nat) 0 ≠
      SyncLoopResult.complete [] 0 := by
  refine ⟨?_, ?_⟩ <;> decide

/-- Claim C6 (amended): only the async variant treats a zero-byte read as a
graceful peer close and stops accumulating immediately (its controller then
still writes the response and closes); the sync variant ignores zero-byte
reads and keeps looping until terminator, read error or deadline. -/
theorem c6_async_zero_read_stops (rest : List (Option (List Nat)))
    (buf : List Nat) (pos : Nat) (w : Bool) :
    asyncLoop (some [] :: rest) buf pos = AsyncLoopResult.eof pos ∧
    asyncConn .ok (some [] :: rest) w = ConnOutcome.finished true true true :=
  ⟨rfl, rfl⟩

/-- Claim C8 counterexample: in the sync variant a failing response write is
not logged-and-closed: `write_all(...).unwrap()` panics, so the connection in
the Responding state escalates the write error and aborts the process instead
of proceeding to Closing. -/
theorem c8_counterexample :
    syncConn .ok [(some [13, 10, 13, 10], 0)] false 20000 = ConnOutcome.panicked ∧
    ConnOutcome.panicked ≠ ConnOutcome.finished false true false := by
  refine ⟨?_, ?_⟩ <;> decide

/-- Claim C8 (amended): only the async variant always proceeds to close
regardless of the response-write outcome (a write error is logged); the sync
variant closes only when the write succeeds and panics via `unwrap` when it
fails. -/
theorem c8_write_outcome_handling
    (evsA : List (Option (List Nat))) (gA : List Nat) (pA : Nat)
    (evsS : List (Option (List Nat) × Nat)) (gS : List Nat) (pS : Nat)
    (waitEnd : Nat)
    (hA : asyncLoop evsA buf0 0 = AsyncLoopResult.complete gA pA)
    (hS : syncLoop evsS waitEnd buf0 0 = SyncLoopResult.complete gS pS) :
    (∀ w1 : Bool, asyncConn .ok evsA w1 = ConnOutcome.finished true true true) ∧
    syncConn .ok evsS true waitEnd = ConnOutcome.finished true true false ∧
    syncConn .ok evsS false waitEnd = ConnOutcome.panicked := by
  refine ⟨fun w1 => ?_, ?_, ?_⟩ <;> simp [asyncConn, syncConn, hA, hS]

theorem c8_write_outcome_handling_witness :
    asyncLoop [some [13, 10, 13, 10]] buf0 0 =
      AsyncLoopResult.complete [13, 10, 13, 10] 0 ∧
    syncLoop [(some [13, 10, 13, 10], 0)] 20000 buf0 0 =
      SyncLoopResult.complete [13, 10, 13, 10] 0 ∧
    ((∀ w1 : Bool, asyncConn .ok [some [13, 10, 13, 10]] w1 =
        ConnOutcome.finished true true true) ∧
     syncConn .ok [(some [13, 10, 13, 10], 0)] true 20000 =
        ConnOutcome.finished true true false ∧
     syncConn .ok [(some [13, 10, 13, 10], 0)] false 20000 = ConnOutcome.panicked) :=
  ⟨by decide, by decide,
   c8_write_outcome_handling [some [13, 10, 13, 10]] [13, 10, 13, 10] 0
     [(some [13, 10, 13, 10], 0)] [13, 10, 13, 10] 0 20000 (by decide) (by decide)⟩

/-- Claim C9 counterexample: with unparsable certificate material the servers
still perform socket activity before the construction failure: the sync
example listens and accepts, the async example accepts, and only then does
the per-connection session construction fail (and the example panics via
`unwrap`) — the claim that the server does not attempt to listen is false. -/
theorem c9_counterexample :
    syncServerActions false false =
      [ServerAction.listen, ServerAction.accept, ServerAction.constructFail] ∧
    ServerAction.listen ∈ syncServerActions false false ∧
    asyncServerActions false false =
      [ServerAction.accept, ServerAction.constructFail] := by
  refine ⟨?_, ?_, ?_⟩ <;> decide

/-- Claim C9 (amended): when certificate or private-key material fails to
parse, the examples discard the parse error (`.ok()`), so the failure is only
hit at per-connection session construction — after the server has listened
(sync) and accepted a connection (both variants).  What does hold: no
handshake is ever attempted with missing certificate material, because
construction fails (and the example panics via `unwrap`) before the handshake
starts. -/
theorem c9_construct_failure_no_handshake (c k : Bool)
    (h : sessionNewOk c k = false) :
    ServerAction.handshakeStart ∉ syncServerActions c k ∧
    ServerAction.constructFail ∈ syncServerActions c k ∧
    ServerAction.handshakeStart ∉ asyncServerActions c k ∧
    ServerAction.constructFail ∈ asyncServerActions c k := by
  refine ⟨?_, ?_, ?_, ?_⟩ <;> simp [syncServerActions, asyncServerActions, h]

theorem c9_construct_failure_no_handshake_witness :
    sessionNewOk false true = false ∧
    (ServerAction.handshakeStart ∉ syncServerActions false true ∧
     ServerAction.constructFail ∈ syncServerActions false true ∧
     ServerAction.handshakeStart ∉ asyncServerActions false true ∧
     ServerAction.constructFail ∈ asyncServerActions false true) :=
  ⟨by decide, c9_construct_failure_no_handshake false true (by decide)⟩

end Srv
